import Mathlib

set_option maxRecDepth 4000

/-!
Shallow embedding of the Go package `config` (file `config.go`).

The package resolves a configuration structure from three layered sources
with precedence environment > json > default.  The embedding models:
  * Go reflect integer kinds and their bit widths (`Width`),
  * runtime field values (`GoValue`), struct fields with their tags
    (`Field`), and whole structures (`StructVal`),
  * the string parsers of `strconv` used by the code
    (`parseIntGo`, `parseUintGo`, `parseBoolGo`),
  * the three functions of the source: `isSet`, `setValue`
    (with its printed diagnostic, as `setValueD`), and
    `setFromEnvOrDefault` (whose `panic` paths become `Except.error`),
  * the top level `Parse`, with file reading and JSON decoding — external
    collaborators the specification leaves as black boxes — modelled as a
    per-field overwrite patch (`PatchStruct`) applied before the
    environment/default pass.
-/

namespace Config

/-- Bit widths of the Go integer kinds appearing in the reflect switches:
`int` (native, 64-bit on the modelled platform), `int8`, `int16`, `int32`,
`int64`, and the unsigned counterparts. -/
inductive Width where
  | wNative
  | w8
  | w16
  | w32
  | w64
deriving DecidableEq, Repr

/-- Number of bits of each width (native `int` is 64-bit here). -/
def intBits : Width → Nat
  | .wNative => 64
  | .w8 => 8
  | .w16 => 16
  | .w32 => 32
  | .w64 => 64

mutual
/-- A runtime Go value of one of the kinds the walker can meet:
strings, signed and unsigned integers of a declared width, booleans,
embedded structures, and a catch-all for any other kind. -/
inductive GoValue where
  | vstr : String → GoValue
  | vint : Width → Int → GoValue
  | vuint : Width → Nat → GoValue
  | vbool : Bool → GoValue
  | vstruct : StructVal → GoValue
  | vother : GoValue

/-- A struct field: declared name, `env` tag, `def` tag, Go reflect
settability (`CanSet`), and current value.  A tag that is absent in Go
reads as the empty string, so both tags are plain strings here. -/
inductive Field where
  | mk : String → String → String → Bool → GoValue → Field

/-- A structure value: its Go type name and its fields in declared order. -/
inductive StructVal where
  | mk : String → List Field → StructVal
end

def Field.name : Field → String
  | .mk n _ _ _ _ => n

def Field.envTag : Field → String
  | .mk _ e _ _ _ => e

def Field.defTag : Field → String
  | .mk _ _ d _ _ => d

def Field.canSet : Field → Bool
  | .mk _ _ _ c _ => c

def Field.value : Field → GoValue
  | .mk _ _ _ _ v => v

def StructVal.typeName : StructVal → String
  | .mk tn _ => tn

def StructVal.fields : StructVal → List Field
  | .mk _ fs => fs

/-- A tag value participates only when it is neither empty nor the omit
marker, mirroring the checks in the source. -/
def tagOk (t : String) : Bool := t != "" && t != "-"

/-- Value of a base-10 digit string (all characters must be digits). -/
def digitsVal (cs : List Char) : Option Nat :=
  cs.foldl
    (fun acc c =>
      match acc with
      | none => none
      | some n => if c.isDigit then some (n * 10 + (c.toNat - 48)) else none)
    (some 0)

/-- Model of Go `strconv.ParseUint(s, 10, 64)`: no sign allowed, all
base-10 digits, value must fit in 64 bits; `none` models a non-nil error. -/
def parseUintGo (s : String) : Option Nat :=
  match s.toList with
  | [] => none
  | cs =>
    match digitsVal cs with
    | none => none
    | some n => if n < 2 ^ 64 then some n else none

/-- Model of Go `strconv.ParseInt(s, 10, 64)`: optional sign, base-10
digits, int64 range check; `none` models a non-nil error. -/
def parseIntGo (s : String) : Option Int :=
  match s.toList with
  | [] => none
  | c :: rest =>
    let signed : Bool × List Char :=
      if c = '-' then (true, rest)
      else if c = '+' then (false, rest) else (false, c :: rest)
    match signed with
    | (neg, ds) =>
      match ds with
      | [] => none
      | _ =>
        match digitsVal ds with
        | none => none
        | some n =>
          if neg then
            if n ≤ 2 ^ 63 then some (-(n : Int)) else none
          else
            if n < 2 ^ 63 then some (n : Int) else none

/-- Model of Go `strconv.ParseBool`: the exact literal forms accepted. -/
def parseBoolGo (s : String) : Option Bool :=
  match s with
  | "1" | "t" | "T" | "true" | "TRUE" | "True" => some true
  | "0" | "f" | "F" | "false" | "FALSE" | "False" => some false
  | _ => none

/-- Two's-complement truncation performed by `reflect.Value.SetInt` when
storing an int64 into a narrower signed field. -/
def truncInt (w : Width) (z : Int) : Int :=
  let m : Int := (2 : Int) ^ intBits w
  let r := z % m
  if r < m / 2 then r else r - m

/-- Go type name of a value, as `%T` and `Type.Name()` print it in the
diagnostic of `setValue`. -/
def goTypeName : GoValue → String
  | .vstr _ => "string"
  | .vint .wNative _ => "int"
  | .vint .w8 _ => "int8"
  | .vint .w16 _ => "int16"
  | .vint .w32 _ => "int32"
  | .vint .w64 _ => "int64"
  | .vuint .wNative _ => "uint"
  | .vuint .w8 _ => "uint8"
  | .vuint .w16 _ => "uint16"
  | .vuint .w32 _ => "uint32"
  | .vuint .w64 _ => "uint64"
  | .vbool _ => "bool"
  | .vstruct sv => sv.typeName
  | .vother => "other"

/-- The diagnostic `setValue` prints on a parse failure:
`fmt.Printf("[Config Error]Invalid value: %s(%T), got %v\n", t.Name(),
field.Interface(), strVal)` — note both verbs print the type name, the
function has no access to the field name. -/
def invalidMsg (tn s : String) : String :=
  "[Config Error]Invalid value: " ++ tn ++ "(" ++ tn ++ "), got " ++ s ++ "\x0a"

/-- Model of the source function `setValue`, additionally returning the
diagnostic it prints (`none` when nothing is printed).  The integer
switches list the kinds `Int, Int8, Int32, Int64` and
`Uint, Uint8, Uint32, Uint64` exactly as the source does: the 16-bit
kinds match no case and fall through with no action. -/
def setValueD (v : GoValue) (s : String) : GoValue × Option String :=
  match v with
  | .vstr _ => (.vstr s, none)
  | .vint w z =>
    match w with
    | .w16 => (.vint .w16 z, none)
    | _ =>
      match parseIntGo s with
      | none => (.vint w z, some (invalidMsg (goTypeName (.vint w z)) s))
      | some n => (.vint w (truncInt w n), none)
  | .vuint w n0 =>
    match w with
    | .w16 => (.vuint .w16 n0, none)
    | _ =>
      match parseUintGo s with
      | none => (.vuint w n0, some (invalidMsg (goTypeName (.vuint w n0)) s))
      | some n => (.vuint w (n % 2 ^ intBits w), none)
  | .vbool b =>
    match parseBoolGo s with
    | none => (.vbool b, some (invalidMsg "bool" s))
    | some b2 => (.vbool b2, none)
  | .vstruct sv => (.vstruct sv, none)
  | .vother => (.vother, none)

/-- The value computed by the source function `setValue` (diagnostic
dropped). -/
def setValue (v : GoValue) (s : String) : GoValue :=
  (setValueD v s).1

/-- Model of the source function `isSet`.  The switch lists the kinds
`String`, `Int, Int8, Int32, Int64`, `Uint, Uint8, Uint32, Uint64`,
`Bool` exactly as the source does; every other kind — including the
16-bit integer kinds absent from the case lists — reaches the final
`return true`. -/
def isSet (v : GoValue) : Bool :=
  match v with
  | .vstr s => s.length > 0
  | .vint w z =>
    match w with
    | .w16 => true
    | _ => decide (0 < z)
  | .vuint w n =>
    match w with
    | .w16 => true
    | _ => decide (0 < n)
  | .vbool b => b
  | .vstruct _ => true
  | .vother => true

/-- Environment step of the per-field loop: when the `env` tag is
non-omitted and the variable is non-empty, run `setValue` with it. -/
def envStep (env : String → String) (e : String) (v : GoValue) : GoValue :=
  if tagOk e && env e != "" then setValue v (env e) else v

/-- Default step of the per-field loop: when the field is not `isSet`,
apply the non-omitted `def` tag through `setValue`. -/
def defStep (d : String) (v : GoValue) : GoValue :=
  if isSet v then v else if tagOk d then setValue v d else v

/-- Resolution of one leaf field's value: environment step, then the
`isSet` guard, then the default step — the exact body of the loop in
`setFromEnvOrDefault` for a field that is not a recognized sub-structure. -/
def resolveLeafVal (env : String → String) (e d : String) (v : GoValue) : GoValue :=
  defStep d (envStep env e v)

/-- Message of the `panic` raised when a field is not settable. -/
def cannotSetMsg (tn n : String) : String :=
  "[Config Error]" ++ tn ++ " Field " ++ n ++ " Cannot set."

/-- Message of the run-time panic raised by a failed Go type assertion
`v.Interface().(T)`. -/
def assertFailMsg (want : String) : String :=
  "interface conversion: interface \x7b\x7d is not config." ++ want

mutual
/-- Model of the source function `setFromEnvOrDefault`.  Panics (the
`CanSet` check and the two type assertions) become `Except.error`. -/
def setFromEnvOrDefault (env : String → String) (sv : StructVal) :
    Except String StructVal :=
  match sv with
  | .mk tn fs =>
    match goFields env tn fs with
    | .error m => .error m
    | .ok fs2 => .ok (.mk tn fs2)

/-- The field loop of `setFromEnvOrDefault`, in declared order. -/
def goFields (env : String → String) (tn : String) (fs : List Field) :
    Except String (List Field) :=
  match fs with
  | [] => .ok []
  | f :: rest =>
    match resolveField env tn f with
    | .error m => .error m
    | .ok f2 =>
      match goFields env tn rest with
      | .error m => .error m
      | .ok rest2 => .ok (f2 :: rest2)

/-- One iteration of the loop: the `CanSet` check, the two
name-dispatched recursions (with their type assertions), and otherwise
the leaf env/default resolution. -/
def resolveField (env : String → String) (tn : String) (f : Field) :
    Except String Field :=
  match f with
  | .mk n e d c v =>
    if c = false then
      .error (cannotSetMsg tn n)
    else if n = "SharedLeaf" then
      recurseShared env "SharedLeaf" n e d c v
    else if n = "SharedBeego" then
      recurseShared env "SharedBeego" n e d c v
    else
      .ok (.mk n e d c (resolveLeafVal env e d v))

/-- Body shared by the two name-dispatched branches of the loop (they are
identical in the source up to the asserted type `want`): the type
assertion `v.Interface().(want)` — a run-time panic when the value is not
a structure of exactly that type — then the recursive call and the
write-back `v.Set(reflect.ValueOf(x))`. -/
def recurseShared (env : String → String) (want n e d : String) (c : Bool)
    (v : GoValue) : Except String Field :=
  match v with
  | .vstruct sv =>
    if sv.typeName = want then
      match setFromEnvOrDefault env sv with
      | .error m => .error m
      | .ok sv2 => .ok (.mk n e d c (.vstruct sv2))
    else .error (assertFailMsg want)
  | _ => .error (assertFailMsg want)
end

mutual
/-- One JSON-decoded value, as the black-box structural decoder can
deliver it into a field of matching Go type. -/
inductive PatchVal where
  | pstr : String → PatchVal
  | pint : Int → PatchVal
  | puint : Nat → PatchVal
  | pbool : Bool → PatchVal
  | pstruct : PatchStruct → PatchVal

/-- Effect of JSON decoding on a structure: per field, in declared
order, either leave it (`none`: key absent, or a per-field decode error)
or overwrite it with a decoded value.  A missing suffix leaves the
remaining fields untouched. -/
inductive PatchStruct where
  | mk : List (Option PatchVal) → PatchStruct
end

/-- Whether an int64 value fits a signed field of the given width
(the decoder reports an error and leaves the field otherwise). -/
def intFits (w : Width) (z : Int) : Bool :=
  decide (-((2 : Int) ^ (intBits w - 1)) ≤ z) && decide (z < (2 : Int) ^ (intBits w - 1))

mutual
/-- Apply a decode patch to a structure. -/
def overlayStruct (p : PatchStruct) (sv : StructVal) : StructVal :=
  match p, sv with
  | .mk ps, .mk tn fs => .mk tn (overlayFields ps fs)

/-- Apply a per-field patch list positionally; fields beyond the list
are left untouched. -/
def overlayFields (ps : List (Option PatchVal)) (fs : List Field) : List Field :=
  match ps, fs with
  | _, [] => []
  | [], f :: rest => f :: overlayFields [] rest
  | op :: ps2, f :: rest => overlayField op f :: overlayFields ps2 rest

/-- Apply one optional patch to one field (tags and settability are
static, only the value can change). -/
def overlayField (op : Option PatchVal) (f : Field) : Field :=
  match op, f with
  | none, f => f
  | some pv, .mk n e d c v => .mk n e d c (overlayValue pv v)

/-- Apply one decoded value to one field value.  The structural decoder
is type-directed: a decoded value of the wrong shape for the field, or
an out-of-range number, is a per-field decode error that leaves the
field unchanged (the source treats every decode error as non-fatal). -/
def overlayValue (pv : PatchVal) (v : GoValue) : GoValue :=
  match pv, v with
  | .pstr s, .vstr _ => .vstr s
  | .pint z, .vint w z0 => if intFits w z then .vint w z else .vint w z0
  | .puint n2, .vuint w n0 => if n2 < 2 ^ intBits w then .vuint w n2 else .vuint w n0
  | .pbool b, .vbool _ => .vbool b
  | .pstruct p2, .vstruct sv => .vstruct (overlayStruct p2 sv)
  | _, v0 => v0
end

/-- The value change an optional patch makes on a field's value. -/
def overlayValueOpt (op : Option PatchVal) (v : GoValue) : GoValue :=
  match op with
  | none => v
  | some pv => overlayValue pv v

/-- Model of the source function `Parse`.  `readResult` is the outcome
of `ioutil.ReadFile` (`none`: read error, in which case `data` is nil
and `json.Unmarshal` fails without touching the destination, exactly as
an empty patch does).  `decode` abstracts the black-box
`json.Unmarshal`, as the per-field overwrite it performs on the
destination for the given file content.  Both failures are merely
printed in the source, so they leave no other trace here. -/
def Parse (readResult : Option String) (decode : String → PatchStruct)
    (env : String → String) (st : StructVal) : Except String StructVal :=
  setFromEnvOrDefault env (overlayStruct
    (match readResult with
     | none => PatchStruct.mk []
     | some data => decode data) st)

mutual
/-- A structure the walker accepts: every field is settable, and every
field named `SharedLeaf` or `SharedBeego` holds a structure value of
exactly that type (recursively well formed). -/
def wfStruct (sv : StructVal) : Bool :=
  match sv with
  | .mk _ fs => wfFields fs

def wfFields (fs : List Field) : Bool :=
  match fs with
  | [] => true
  | f :: rest => wfField f && wfFields rest

def wfField (f : Field) : Bool :=
  match f with
  | .mk n _ _ c v =>
    c &&
      (if n = "SharedLeaf" then
        match v with
        | .vstruct sv => sv.typeName == "SharedLeaf" && wfStruct sv
        | _ => false
      else if n = "SharedBeego" then
        match v with
        | .vstruct sv => sv.typeName == "SharedBeego" && wfStruct sv
        | _ => false
      else true)
end

/-- Declared kind of a value (shape plus width), the information the
reflect switches dispatch on. -/
inductive GoKind where
  | kstr
  | kint (w : Width)
  | kuint (w : Width)
  | kbool
  | kstruct
  | kother
deriving DecidableEq, Repr

def kindOf : GoValue → GoKind
  | .vstr _ => .kstr
  | .vint w _ => .kint w
  | .vuint w _ => .kuint w
  | .vbool _ => .kbool
  | .vstruct _ => .kstruct
  | .vother => .kother

/-- The value `setValue` would assign for a given declared kind and
source string, independent of the field's current contents: `none` when
the switch either fails to parse or has no case for the kind. -/
def coerce (k : GoKind) (s : String) : Option GoValue :=
  match k with
  | .kstr => some (.vstr s)
  | .kint .w16 => none
  | .kint w => (parseIntGo s).map (fun z => .vint w (truncInt w z))
  | .kuint .w16 => none
  | .kuint w => (parseUintGo s).map (fun n => .vuint w (n % 2 ^ intBits w))
  | .kbool => (parseBoolGo s).map (fun b => .vbool b)
  | .kstruct => none
  | .kother => none

theorem setValue_eq_coerce (v : GoValue) (s : String) :
    setValue v s = (coerce (kindOf v) s).getD v := by
  cases v with
  | vstr s0 => rfl
  | vint w z =>
    cases w <;> simp only [setValue, setValueD, coerce, kindOf] <;>
      cases parseIntGo s <;> simp
  | vuint w n =>
    cases w <;> simp only [setValue, setValueD, coerce, kindOf] <;>
      cases parseUintGo s <;> simp
  | vbool b =>
    simp only [setValue, setValueD, coerce, kindOf]
    cases parseBoolGo s <;> simp
  | vstruct sv => rfl
  | vother => rfl

theorem kindOf_coerce {k : GoKind} {s : String} {w : GoValue}
    (h : coerce k s = some w) : kindOf w = k := by
  cases k with
  | kstr =>
    simp only [coerce, Option.some_inj] at h
    subst h; rfl
  | kint wd =>
    cases wd
    case w16 => simp [coerce] at h
    all_goals
      simp only [coerce, Option.map_eq_some'] at h
      obtain ⟨z, hz, rfl⟩ := h
      rfl
  | kuint wd =>
    cases wd
    case w16 => simp [coerce] at h
    all_goals
      simp only [coerce, Option.map_eq_some'] at h
      obtain ⟨n, hn, rfl⟩ := h
      rfl
  | kbool =>
    simp only [coerce, Option.map_eq_some'] at h
    obtain ⟨b, hb, rfl⟩ := h
    rfl
  | kstruct => simp [coerce] at h
  | kother => simp [coerce] at h

theorem kindOf_setValue (v : GoValue) (s : String) :
    kindOf (setValue v s) = kindOf v := by
  rw [setValue_eq_coerce]
  cases hc : coerce (kindOf v) s with
  | none => rfl
  | some w => simpa using kindOf_coerce hc

theorem kindOf_envStep (env : String → String) (e : String) (v : GoValue) :
    kindOf (envStep env e v) = kindOf v := by
  unfold envStep
  split
  · exact kindOf_setValue v _
  · rfl

theorem kindOf_defStep (d : String) (v : GoValue) :
    kindOf (defStep d v) = kindOf v := by
  unfold defStep
  split
  · rfl
  · split
    · exact kindOf_setValue v _
    · rfl

theorem kindOf_resolveLeafVal (env : String → String) (e d : String) (v : GoValue) :
    kindOf (resolveLeafVal env e d v) = kindOf v := by
  unfold resolveLeafVal
  rw [kindOf_defStep, kindOf_envStep]

theorem kind_shape_str {v : GoValue} (h : kindOf v = .kstr) :
    ∃ s, v = .vstr s := by
  cases v <;> simp [kindOf] at h <;> exact ⟨_, rfl⟩

theorem kind_shape_int {v : GoValue} {w : Width} (h : kindOf v = .kint w) :
    ∃ z, v = .vint w z := by
  cases v <;> simp [kindOf] at h
  subst h; exact ⟨_, rfl⟩

theorem kind_shape_uint {v : GoValue} {w : Width} (h : kindOf v = .kuint w) :
    ∃ n, v = .vuint w n := by
  cases v <;> simp [kindOf] at h
  subst h; exact ⟨_, rfl⟩

theorem kind_shape_bool {v : GoValue} (h : kindOf v = .kbool) :
    ∃ b, v = .vbool b := by
  cases v <;> simp [kindOf] at h <;> exact ⟨_, rfl⟩

theorem kind_shape_struct {v : GoValue} (h : kindOf v = .kstruct) :
    ∃ sv, v = .vstruct sv := by
  cases v <;> simp [kindOf] at h <;> exact ⟨_, rfl⟩

theorem setValue_vstruct (sv : StructVal) (s : String) :
    setValue (.vstruct sv) s = .vstruct sv := rfl

theorem isSet_vstruct (sv : StructVal) : isSet (.vstruct sv) = true := rfl

theorem resolveLeafVal_vstruct (env : String → String) (e d : String)
    (sv : StructVal) : resolveLeafVal env e d (.vstruct sv) = .vstruct sv := by
  unfold resolveLeafVal envStep defStep
  split <;> simp [setValue_vstruct, isSet_vstruct]

/-- The default step changes nothing when run twice. -/
theorem defStep_idem (d : String) (v : GoValue) :
    defStep d (defStep d v) = defStep d v := by
  by_cases h1 : isSet v
  · simp [defStep, h1]
  · by_cases h2 : tagOk d
    · by_cases h3 : isSet (setValue v d)
      · simp [defStep, h1, h2, h3]
      · simp only [defStep, h1, h2, h3, if_false, if_true, Bool.false_eq_true,
          ite_false, ite_true]
        rw [setValue_eq_coerce (setValue v d) d, kindOf_setValue]
        cases hc : coerce (kindOf v) d with
        | none => rw [setValue_eq_coerce v d, hc]; rfl
        | some wv => simp [setValue_eq_coerce v d, hc]
    · simp [defStep, h1, h2]

/-- Resolving a leaf value is idempotent. -/
theorem resolveLeafVal_idem (env : String → String) (e d : String) (v : GoValue) :
    resolveLeafVal env e d (resolveLeafVal env e d v) = resolveLeafVal env e d v := by
  unfold resolveLeafVal
  by_cases hc : (tagOk e && env e != "") = true
  · unfold envStep
    simp only [hc, if_pos]
    rw [setValue_eq_coerce v (env e)]
    cases hco : coerce (kindOf v) (env e) with
    | some w =>
      simp only [Option.getD_some]
      have hk : kindOf (defStep d w) = kindOf v := by
        rw [kindOf_defStep]; rw [kindOf_coerce hco]
      rw [setValue_eq_coerce (defStep d w), hk, hco]
      simp [defStep_idem]
    | none =>
      simp only [Option.getD_none]
      have hk : kindOf (defStep d v) = kindOf v := kindOf_defStep d v
      rw [setValue_eq_coerce (defStep d v), hk, hco]
      simp [defStep_idem]
  · unfold envStep
    simp only [hc]
    simp [defStep_idem]

theorem overlayField_none (f : Field) : overlayField none f = f := by
  cases f; rfl

theorem overlayField_eq (op : Option PatchVal) (n e d : String) (c : Bool)
    (v : GoValue) :
    overlayField op (.mk n e d c v) = .mk n e d c (overlayValueOpt op v) := by
  cases op <;> rfl

theorem overlayFields_nil (fs : List Field) : overlayFields [] fs = fs := by
  induction fs with
  | nil => rfl
  | cons f rest ih => simp only [overlayFields, ih]

theorem overlayStruct_empty (sv : StructVal) : overlayStruct (.mk []) sv = sv := by
  cases sv with
  | mk tn fs => simp only [overlayStruct, overlayFields_nil]

theorem overlayStruct_typeName (p : PatchStruct) (sv : StructVal) :
    (overlayStruct p sv).typeName = sv.typeName := by
  cases p; cases sv; rfl

theorem kindOf_overlayValue (pv : PatchVal) (v : GoValue) :
    kindOf (overlayValue pv v) = kindOf v := by
  cases pv <;> cases v <;>
    first
    | rfl
    | (simp only [overlayValue]; split <;> rfl)

theorem kindOf_overlayValueOpt (op : Option PatchVal) (v : GoValue) :
    kindOf (overlayValueOpt op v) = kindOf v := by
  cases op with
  | none => rfl
  | some pv => exact kindOf_overlayValue pv v

mutual
theorem overlayValue_idem (pv : PatchVal) (v : GoValue) :
    overlayValue pv (overlayValue pv v) = overlayValue pv v := by
  cases pv with
  | pstr s => cases v <;> rfl
  | pint z =>
    cases v <;> try rfl
    case vint w z0 =>
      by_cases h : intFits w z <;> simp [overlayValue, h]
  | puint n2 =>
    cases v <;> try rfl
    case vuint w n0 =>
      by_cases h : n2 < 2 ^ intBits w <;> simp [overlayValue, h]
  | pbool b => cases v <;> rfl
  | pstruct p2 =>
    cases v <;> try rfl
    case vstruct sv =>
      show GoValue.vstruct (overlayStruct p2 (overlayStruct p2 sv)) =
        GoValue.vstruct (overlayStruct p2 sv)
      exact congrArg GoValue.vstruct (overlayStruct_idem p2 sv)

theorem overlayStruct_idem (p : PatchStruct) (sv : StructVal) :
    overlayStruct p (overlayStruct p sv) = overlayStruct p sv := by
  cases p with
  | mk ps =>
    cases sv with
    | mk tn fs =>
      show StructVal.mk tn (overlayFields ps (overlayFields ps fs)) =
        StructVal.mk tn (overlayFields ps fs)
      exact congrArg (StructVal.mk tn) (overlayItems_idem ps fs)

theorem overlayItems_idem (ps : List (Option PatchVal)) (fs : List Field) :
    overlayFields ps (overlayFields ps fs) = overlayFields ps fs := by
  cases ps with
  | nil => rw [overlayFields_nil, overlayFields_nil]
  | cons op ps2 =>
    cases fs with
    | nil => rfl
    | cons f rest =>
      show overlayField op (overlayField op f) :: overlayFields ps2 (overlayFields ps2 rest) =
        overlayField op f :: overlayFields ps2 rest
      rw [overlayFieldOpt_idem op f, overlayItems_idem ps2 rest]

theorem overlayFieldOpt_idem (op : Option PatchVal) (f : Field) :
    overlayField op (overlayField op f) = overlayField op f := by
  cases op with
  | none => rw [overlayField_none, overlayField_none]
  | some pv =>
    cases f with
    | mk n e d c v =>
      show Field.mk n e d c (overlayValue pv (overlayValue pv v)) =
        Field.mk n e d c (overlayValue pv v)
      rw [overlayValue_idem pv v]
end

theorem wfField_other (n e d : String) (c : Bool) (v : GoValue)
    (h1 : n ≠ "SharedLeaf") (h2 : n ≠ "SharedBeego") :
    wfField (.mk n e d c v) = c := by
  unfold wfField
  rw [if_neg h1, if_neg h2]
  exact Bool.and_true c

theorem wfField_int (n e d : String) (c : Bool) (w w2 : Width) (z z2 : Int) :
    wfField (.mk n e d c (.vint w z)) = wfField (.mk n e d c (.vint w2 z2)) := rfl

theorem wfField_uint (n e d : String) (c : Bool) (w w2 : Width) (n1 n2 : Nat) :
    wfField (.mk n e d c (.vuint w n1)) = wfField (.mk n e d c (.vuint w2 n2)) := rfl

theorem wfField_struct_congr (n e d : String) (c : Bool) (sv sv2 : StructVal)
    (ht : sv.typeName = sv2.typeName) (hw : wfStruct sv = wfStruct sv2) :
    wfField (.mk n e d c (.vstruct sv)) = wfField (.mk n e d c (.vstruct sv2)) := by
  unfold wfField
  by_cases h1 : n = "SharedLeaf"
  · rw [if_pos h1, if_pos h1]
    show (c && (sv.typeName == "SharedLeaf" && wfStruct sv)) =
      (c && (sv2.typeName == "SharedLeaf" && wfStruct sv2))
    rw [ht, hw]
  · by_cases h2 : n = "SharedBeego"
    · rw [if_neg h1, if_neg h1, if_pos h2, if_pos h2]
      show (c && (sv.typeName == "SharedBeego" && wfStruct sv)) =
        (c && (sv2.typeName == "SharedBeego" && wfStruct sv2))
      rw [ht, hw]
    · rw [if_neg h1, if_neg h1, if_neg h2, if_neg h2]

-- A decode patch never changes whether a structure is well formed.
mutual
theorem wf_overlayStruct (p : PatchStruct) (sv : StructVal) :
    wfStruct (overlayStruct p sv) = wfStruct sv := by
  cases p with
  | mk ps =>
    cases sv with
    | mk tn fs =>
      show wfFields (overlayFields ps fs) = wfFields fs
      exact wf_overlayItems ps fs
termination_by sizeOf p

theorem wf_overlayItems (ps : List (Option PatchVal)) (fs : List Field) :
    wfFields (overlayFields ps fs) = wfFields fs := by
  cases ps with
  | nil => rw [overlayFields_nil]
  | cons op ps2 =>
    cases fs with
    | nil => rfl
    | cons f rest =>
      show (wfField (overlayField op f) && wfFields (overlayFields ps2 rest)) =
        (wfField f && wfFields rest)
      rw [wf_overlayField op f, wf_overlayItems ps2 rest]
termination_by sizeOf ps

theorem wf_overlayField (op : Option PatchVal) (f : Field) :
    wfField (overlayField op f) = wfField f := by
  cases op with
  | none => rw [overlayField_none]
  | some pv =>
    cases f with
    | mk n e d c v =>
      show wfField (.mk n e d c (overlayValue pv v)) = wfField (.mk n e d c v)
      cases v with
      | vstruct sv =>
        cases pv with
        | pstruct p2 =>
          show wfField (.mk n e d c (.vstruct (overlayStruct p2 sv))) =
            wfField (.mk n e d c (.vstruct sv))
          exact wfField_struct_congr n e d c (overlayStruct p2 sv) sv
            (overlayStruct_typeName p2 sv) (wf_overlayStruct p2 sv)
        | pstr s => rfl
        | pint z => rfl
        | puint n2 => rfl
        | pbool b => rfl
      | vint w z0 =>
        cases pv with
        | pint z =>
          show wfField (.mk n e d c
              (if intFits w z = true then GoValue.vint w z else GoValue.vint w z0)) =
            wfField (.mk n e d c (.vint w z0))
          by_cases hfit : intFits w z = true
          · rw [if_pos hfit]
            exact wfField_int n e d c w w z z0
          · rw [if_neg hfit]
        | pstr s => rfl
        | puint n2 => rfl
        | pbool b => rfl
        | pstruct p2 => rfl
      | vuint w n0 =>
        cases pv with
        | puint n2 =>
          show wfField (.mk n e d c
              (if n2 < 2 ^ intBits w then GoValue.vuint w n2 else GoValue.vuint w n0)) =
            wfField (.mk n e d c (.vuint w n0))
          by_cases hfit : n2 < 2 ^ intBits w
          · rw [if_pos hfit]
            exact wfField_uint n e d c w w n2 n0
          · rw [if_neg hfit]
        | pstr s => rfl
        | pint z => rfl
        | pbool b => rfl
        | pstruct p2 => rfl
      | vstr s0 => cases pv <;> rfl
      | vbool b0 => cases pv <;> rfl
      | vother => cases pv <;> rfl
termination_by sizeOf op
end

/-- Whether a decoded value's shape addresses a field of the given kind
(used only to reason about the decoder model). -/
def patchHits : PatchVal → GoKind → Bool
  | .pstr _, .kstr => true
  | .pint _, .kint _ => true
  | .puint _, .kuint _ => true
  | .pbool _, .kbool => true
  | .pstruct _, .kstruct => true
  | _, _ => false

theorem overlayValue_miss (pv : PatchVal) (b : GoValue)
    (h : patchHits pv (kindOf b) = false) : overlayValue pv b = b := by
  cases pv <;> cases b <;> first | rfl | simp [patchHits, kindOf] at h

theorem resolveLeaf_overlay_miss (env : String → String) (e d : String)
    (pv : PatchVal) (v : GoValue) (h : patchHits pv (kindOf v) = false) :
    resolveLeafVal env e d (overlayValue pv
        (resolveLeafVal env e d (overlayValue pv v))) =
      resolveLeafVal env e d (overlayValue pv v) := by
  have h1 : overlayValue pv v = v := overlayValue_miss pv v h
  have hk : kindOf (resolveLeafVal env e d v) = kindOf v :=
    kindOf_resolveLeafVal env e d v
  have h2 : overlayValue pv (resolveLeafVal env e d v) = resolveLeafVal env e d v :=
    overlayValue_miss pv _ (by rw [hk, h])
  rw [h1, h2]
  exact resolveLeafVal_idem env e d v

/-- Re-applying the same decoded value and re-resolving a leaf changes
nothing once the leaf has been resolved. -/
theorem resolveLeaf_overlay_idem (env : String → String) (e d : String)
    (op : Option PatchVal) (v : GoValue) :
    resolveLeafVal env e d (overlayValueOpt op
        (resolveLeafVal env e d (overlayValueOpt op v))) =
      resolveLeafVal env e d (overlayValueOpt op v) := by
  cases op with
  | none => exact resolveLeafVal_idem env e d v
  | some pv =>
    show resolveLeafVal env e d (overlayValue pv
        (resolveLeafVal env e d (overlayValue pv v))) =
      resolveLeafVal env e d (overlayValue pv v)
    cases pv <;> cases v
    case pstr.vstr s s0 =>
      show resolveLeafVal env e d (overlayValue (.pstr s)
          (resolveLeafVal env e d (.vstr s))) =
        resolveLeafVal env e d (.vstr s)
      obtain ⟨sb, hsb⟩ := kind_shape_str (kindOf_resolveLeafVal env e d (.vstr s))
      rw [hsb]
      show resolveLeafVal env e d (.vstr s) = .vstr sb
      exact hsb
    case pbool.vbool b2 b0 =>
      show resolveLeafVal env e d (overlayValue (.pbool b2)
          (resolveLeafVal env e d (.vbool b2))) =
        resolveLeafVal env e d (.vbool b2)
      obtain ⟨bb, hbb⟩ := kind_shape_bool (kindOf_resolveLeafVal env e d (.vbool b2))
      rw [hbb]
      show resolveLeafVal env e d (.vbool b2) = .vbool bb
      exact hbb
    case pint.vint z w z0 =>
      show resolveLeafVal env e d (overlayValue (.pint z)
          (resolveLeafVal env e d
            (if intFits w z = true then GoValue.vint w z else GoValue.vint w z0))) =
        resolveLeafVal env e d
          (if intFits w z = true then GoValue.vint w z else GoValue.vint w z0)
      by_cases hfit : intFits w z = true
      · rw [if_pos hfit]
        obtain ⟨zb, hzb⟩ := kind_shape_int (kindOf_resolveLeafVal env e d (.vint w z))
        rw [hzb]
        show resolveLeafVal env e d
            (if intFits w z = true then GoValue.vint w z else GoValue.vint w zb) =
          .vint w zb
        rw [if_pos hfit]
        exact hzb
      · rw [if_neg hfit]
        obtain ⟨zb, hzb⟩ := kind_shape_int (kindOf_resolveLeafVal env e d (.vint w z0))
        rw [hzb]
        show resolveLeafVal env e d
            (if intFits w z = true then GoValue.vint w z else GoValue.vint w zb) =
          .vint w zb
        rw [if_neg hfit, ← hzb]
        exact resolveLeafVal_idem env e d (.vint w z0)
    case puint.vuint n2 w n0 =>
      show resolveLeafVal env e d (overlayValue (.puint n2)
          (resolveLeafVal env e d
            (if n2 < 2 ^ intBits w then GoValue.vuint w n2 else GoValue.vuint w n0))) =
        resolveLeafVal env e d
          (if n2 < 2 ^ intBits w then GoValue.vuint w n2 else GoValue.vuint w n0)
      by_cases hfit : n2 < 2 ^ intBits w
      · rw [if_pos hfit]
        obtain ⟨nb, hnb⟩ := kind_shape_uint (kindOf_resolveLeafVal env e d (.vuint w n2))
        rw [hnb]
        show resolveLeafVal env e d
            (if n2 < 2 ^ intBits w then GoValue.vuint w n2 else GoValue.vuint w nb) =
          .vuint w nb
        rw [if_pos hfit]
        exact hnb
      · rw [if_neg hfit]
        obtain ⟨nb, hnb⟩ := kind_shape_uint (kindOf_resolveLeafVal env e d (.vuint w n0))
        rw [hnb]
        show resolveLeafVal env e d
            (if n2 < 2 ^ intBits w then GoValue.vuint w n2 else GoValue.vuint w nb) =
          .vuint w nb
        rw [if_neg hfit, ← hnb]
        exact resolveLeafVal_idem env e d (.vuint w n0)
    case pstruct.vstruct p2 sv =>
      show resolveLeafVal env e d (overlayValue (.pstruct p2)
          (resolveLeafVal env e d (.vstruct (overlayStruct p2 sv)))) =
        resolveLeafVal env e d (.vstruct (overlayStruct p2 sv))
      rw [resolveLeafVal_vstruct]
      show resolveLeafVal env e d
          (.vstruct (overlayStruct p2 (overlayStruct p2 sv))) =
        .vstruct (overlayStruct p2 sv)
      rw [overlayStruct_idem]
      exact resolveLeafVal_vstruct env e d (overlayStruct p2 sv)
    all_goals
      exact resolveLeaf_overlay_miss env e d _ _ (by rfl)

theorem setFrom_typeName {env : String → String} {sv sv2 : StructVal}
    (h : setFromEnvOrDefault env sv = .ok sv2) :
    sv2.typeName = sv.typeName := by
  cases sv with
  | mk tn fs =>
    unfold setFromEnvOrDefault at h
    cases hg : goFields env tn fs with
    | error m => rw [hg] at h; exact Except.noConfusion h
    | ok fs2 =>
      rw [hg] at h
      injection h with h3
      rw [← h3]
      rfl

/-- What a successful run of a name-dispatched branch tells us. -/
theorem recurseShared_ok {env : String → String} {want n e d : String}
    {c : Bool} {u : GoValue} {f2 : Field}
    (h : recurseShared env want n e d c u = .ok f2) :
    ∃ sv1 sv2, u = .vstruct sv1 ∧ sv1.typeName = want ∧
      setFromEnvOrDefault env sv1 = .ok sv2 ∧
      f2 = .mk n e d c (.vstruct sv2) := by
  cases u with
  | vstruct sv1 =>
    unfold recurseShared at h
    by_cases ht : sv1.typeName = want
    · rw [if_pos ht] at h
      cases hs : setFromEnvOrDefault env sv1 with
      | error m => rw [hs] at h; exact Except.noConfusion h
      | ok sv2 =>
        rw [hs] at h
        injection h with h3
        exact ⟨sv1, sv2, rfl, ht, hs, h3.symm⟩
    · rw [if_neg ht] at h; exact Except.noConfusion h
  | vstr s => exact Except.noConfusion h
  | vint w z => exact Except.noConfusion h
  | vuint w nn => exact Except.noConfusion h
  | vbool b => exact Except.noConfusion h
  | vother => exact Except.noConfusion h

-- Re-running the whole pipeline (decode patch, then environment/default
-- pass) on an already resolved structure reproduces it exactly.
mutual
theorem parseAgainStruct (env : String → String) (p : PatchStruct)
    (sv sv2 : StructVal)
    (h : setFromEnvOrDefault env (overlayStruct p sv) = .ok sv2) :
    setFromEnvOrDefault env (overlayStruct p sv2) = .ok sv2 := by
  cases p with
  | mk ps =>
    cases sv with
    | mk tn fs =>
      rw [show overlayStruct (.mk ps) (.mk tn fs) =
        .mk tn (overlayFields ps fs) from rfl] at h
      unfold setFromEnvOrDefault at h
      cases hg : goFields env tn (overlayFields ps fs) with
      | error m => rw [hg] at h; exact Except.noConfusion h
      | ok fs2 =>
        rw [hg] at h
        injection h with h3
        subst h3
        have hd := parseAgainFields env tn ps fs fs2 hg
        show setFromEnvOrDefault env (.mk tn (overlayFields ps fs2)) =
          .ok (.mk tn fs2)
        unfold setFromEnvOrDefault
        rw [hd]
termination_by sizeOf sv

theorem parseAgainFields (env : String → String) (tn : String)
    (ps : List (Option PatchVal)) (fs fs2 : List Field)
    (h : goFields env tn (overlayFields ps fs) = .ok fs2) :
    goFields env tn (overlayFields ps fs2) = .ok fs2 := by
  cases fs with
  | nil =>
    have h0 : fs2 = [] := by
      have h4 : (Except.ok [] : Except String (List Field)) = .ok fs2 := by
        rw [← h]
        cases ps <;> rfl
      injection h4 with h3
      exact h3.symm
    subst h0
    cases ps <;> rfl
  | cons f rest =>
    cases ps with
    | nil =>
      rw [overlayFields_nil] at h
      unfold goFields at h
      cases hr : resolveField env tn f with
      | error m => rw [hr] at h; exact Except.noConfusion h
      | ok f2a =>
        rw [hr] at h
        cases hg2 : goFields env tn rest with
        | error m => rw [hg2] at h; exact Except.noConfusion h
        | ok rest2 =>
          rw [hg2] at h
          injection h with h3
          subst h3
          rw [overlayFields_nil]
          have hf := parseAgainField env tn none f f2a
            (by rw [overlayField_none]; exact hr)
          rw [overlayField_none] at hf
          have hrest : goFields env tn (overlayFields [] rest2) = .ok rest2 :=
            parseAgainFields env tn [] rest rest2
              (by rw [overlayFields_nil]; exact hg2)
          rw [overlayFields_nil] at hrest
          unfold goFields
          rw [hf, hrest]
    | cons op ps2 =>
      rw [show overlayFields (op :: ps2) (f :: rest) =
        overlayField op f :: overlayFields ps2 rest from rfl] at h
      unfold goFields at h
      cases hr : resolveField env tn (overlayField op f) with
      | error m => rw [hr] at h; exact Except.noConfusion h
      | ok f2a =>
        rw [hr] at h
        cases hg2 : goFields env tn (overlayFields ps2 rest) with
        | error m => rw [hg2] at h; exact Except.noConfusion h
        | ok rest2 =>
          rw [hg2] at h
          injection h with h3
          subst h3
          have hf := parseAgainField env tn op f f2a hr
          have hrest := parseAgainFields env tn ps2 rest rest2 hg2
          show goFields env tn
            (overlayField op f2a :: overlayFields ps2 rest2) = _
          unfold goFields
          rw [hf, hrest]
termination_by sizeOf fs

theorem parseAgainField (env : String → String) (tn : String)
    (op : Option PatchVal) (f f2 : Field)
    (h : resolveField env tn (overlayField op f) = .ok f2) :
    resolveField env tn (overlayField op f2) = .ok f2 := by
  cases f with
  | mk n e d c v =>
    rw [overlayField_eq] at h
    unfold resolveField at h
    by_cases hc : c = false
    · rw [if_pos hc] at h; exact Except.noConfusion h
    · rw [if_neg hc] at h
      by_cases h1 : n = "SharedLeaf"
      · rw [if_pos h1] at h
        obtain ⟨sv1, sv2, hu, ht, hs, hf2⟩ := recurseShared_ok h
        subst hf2
        rw [overlayField_eq]
        unfold resolveField
        rw [if_neg hc, if_pos h1]
        exact parseAgainShared env "SharedLeaf" n e d c op v sv1 sv2 hu ht hs
      · rw [if_neg h1] at h
        by_cases h2 : n = "SharedBeego"
        · rw [if_pos h2] at h
          obtain ⟨sv1, sv2, hu, ht, hs, hf2⟩ := recurseShared_ok h
          subst hf2
          rw [overlayField_eq]
          unfold resolveField
          rw [if_neg hc, if_neg h1, if_pos h2]
          exact parseAgainShared env "SharedBeego" n e d c op v sv1 sv2 hu ht hs
        · rw [if_neg h2] at h
          injection h with h3
          subst h3
          rw [overlayField_eq]
          unfold resolveField
          rw [if_neg hc, if_neg h1, if_neg h2]
          show Except.ok (Field.mk n e d c (resolveLeafVal env e d
            (overlayValueOpt op
              (resolveLeafVal env e d (overlayValueOpt op v))))) = _
          rw [resolveLeaf_overlay_idem]
termination_by sizeOf f

theorem parseAgainShared (env : String → String) (want n e d : String)
    (c : Bool) (op : Option PatchVal) (v : GoValue) (sv1 sv2 : StructVal)
    (hu : overlayValueOpt op v = .vstruct sv1)
    (ht : sv1.typeName = want)
    (hs : setFromEnvOrDefault env sv1 = .ok sv2) :
    recurseShared env want n e d c (overlayValueOpt op (.vstruct sv2)) =
      .ok (.mk n e d c (.vstruct sv2)) := by
  have ht2 : sv2.typeName = want := by rw [setFrom_typeName hs, ht]
  cases op with
  | none =>
    have hv : v = .vstruct sv1 := hu
    subst hv
    have hs2 : setFromEnvOrDefault env sv2 = .ok sv2 := by
      have h0 : setFromEnvOrDefault env (overlayStruct (.mk []) sv1) = .ok sv2 := by
        rw [overlayStruct_empty]; exact hs
      have h1b := parseAgainStruct env (.mk []) sv1 sv2 h0
      rwa [overlayStruct_empty] at h1b
    show recurseShared env want n e d c (.vstruct sv2) = _
    unfold recurseShared
    rw [if_pos ht2, hs2]
  | some pv =>
    have hk := kindOf_overlayValue pv v
    rw [show overlayValueOpt (some pv) v = overlayValue pv v from rfl] at hu
    rw [hu] at hk
    obtain ⟨sv0, hv⟩ := kind_shape_struct hk.symm
    subst hv
    cases pv with
    | pstruct p2 =>
      have hu2 : overlayStruct p2 sv0 = sv1 := by
        have h5 : GoValue.vstruct (overlayStruct p2 sv0) = .vstruct sv1 := hu
        injection h5
      have hs2 : setFromEnvOrDefault env (overlayStruct p2 sv2) = .ok sv2 := by
        apply parseAgainStruct env p2 sv0 sv2
        rw [hu2]; exact hs
      show recurseShared env want n e d c (.vstruct (overlayStruct p2 sv2)) = _
      unfold recurseShared
      rw [if_pos (show (overlayStruct p2 sv2).typeName = want by
        rw [overlayStruct_typeName]; exact ht2), hs2]
    | pstr s =>
      have hu2 : sv0 = sv1 := by
        have h5 : GoValue.vstruct sv0 = .vstruct sv1 := hu
        injection h5
      subst hu2
      have hs2 : setFromEnvOrDefault env sv2 = .ok sv2 := by
        have h0 : setFromEnvOrDefault env (overlayStruct (.mk []) sv0) = .ok sv2 := by
          rw [overlayStruct_empty]; exact hs
        have h1b := parseAgainStruct env (.mk []) sv0 sv2 h0
        rwa [overlayStruct_empty] at h1b
      show recurseShared env want n e d c (.vstruct sv2) = _
      unfold recurseShared
      rw [if_pos ht2, hs2]
    | pint z =>
      have hu2 : sv0 = sv1 := by
        have h5 : GoValue.vstruct sv0 = .vstruct sv1 := hu
        injection h5
      subst hu2
      have hs2 : setFromEnvOrDefault env sv2 = .ok sv2 := by
        have h0 : setFromEnvOrDefault env (overlayStruct (.mk []) sv0) = .ok sv2 := by
          rw [overlayStruct_empty]; exact hs
        have h1b := parseAgainStruct env (.mk []) sv0 sv2 h0
        rwa [overlayStruct_empty] at h1b
      show recurseShared env want n e d c (.vstruct sv2) = _
      unfold recurseShared
      rw [if_pos ht2, hs2]
    | puint n2 =>
      have hu2 : sv0 = sv1 := by
        have h5 : GoValue.vstruct sv0 = .vstruct sv1 := hu
        injection h5
      subst hu2
      have hs2 : setFromEnvOrDefault env sv2 = .ok sv2 := by
        have h0 : setFromEnvOrDefault env (overlayStruct (.mk []) sv0) = .ok sv2 := by
          rw [overlayStruct_empty]; exact hs
        have h1b := parseAgainStruct env (.mk []) sv0 sv2 h0
        rwa [overlayStruct_empty] at h1b
      show recurseShared env want n e d c (.vstruct sv2) = _
      unfold recurseShared
      rw [if_pos ht2, hs2]
    | pbool b =>
      have hu2 : sv0 = sv1 := by
        have h5 : GoValue.vstruct sv0 = .vstruct sv1 := hu
        injection h5
      subst hu2
      have hs2 : setFromEnvOrDefault env sv2 = .ok sv2 := by
        have h0 : setFromEnvOrDefault env (overlayStruct (.mk []) sv0) = .ok sv2 := by
          rw [overlayStruct_empty]; exact hs
        have h1b := parseAgainStruct env (.mk []) sv0 sv2 h0
        rwa [overlayStruct_empty] at h1b
      show recurseShared env want n e d c (.vstruct sv2) = _
      unfold recurseShared
      rw [if_pos ht2, hs2]
termination_by sizeOf v
end

/-- Whether a run of the walker returned normally (no panic). -/
def isOkE {α : Type} : Except String α → Bool
  | .ok _ => true
  | .error _ => false

-- The walker returns normally exactly on well-formed structures,
-- whatever the environment holds.
mutual
theorem setFrom_isOk (env : String → String) (sv : StructVal) :
    isOkE (setFromEnvOrDefault env sv) = wfStruct sv := by
  cases sv with
  | mk tn fs =>
    show isOkE (match goFields env tn fs with
      | .error m => .error m
      | .ok fs2 => .ok (StructVal.mk tn fs2)) = wfFields fs
    rw [← goFields_isOk env tn fs]
    cases goFields env tn fs <;> rfl
termination_by sizeOf sv

theorem goFields_isOk (env : String → String) (tn : String) (fs : List Field) :
    isOkE (goFields env tn fs) = wfFields fs := by
  cases fs with
  | nil => rfl
  | cons f rest =>
    show isOkE (match resolveField env tn f with
      | .error m => .error m
      | .ok f2 =>
        match goFields env tn rest with
        | .error m => .error m
        | .ok rest2 => .ok (f2 :: rest2)) = (wfField f && wfFields rest)
    rw [← resolveField_isOk env tn f, ← goFields_isOk env tn rest]
    cases resolveField env tn f with
    | error m => rfl
    | ok f2 => cases goFields env tn rest <;> rfl
termination_by sizeOf fs

theorem resolveField_isOk (env : String → String) (tn : String) (f : Field) :
    isOkE (resolveField env tn f) = wfField f := by
  cases f with
  | mk n e d c v =>
    by_cases hc : c = false
    · subst hc; rfl
    · obtain rfl : c = true := by
        cases c
        · exact absurd rfl hc
        · rfl
      by_cases h1 : n = "SharedLeaf"
      · subst h1
        cases v with
        | vstruct sv =>
          show isOkE (recurseShared env "SharedLeaf" "SharedLeaf" e d true
            (.vstruct sv)) = (sv.typeName == "SharedLeaf" && wfStruct sv)
          by_cases ht : sv.typeName = "SharedLeaf"
          · unfold recurseShared
            rw [if_pos ht]
            have hbeq : (sv.typeName == "SharedLeaf") = true := by
              rw [ht]; rfl
            rw [hbeq, Bool.true_and, ← setFrom_isOk env sv]
            cases setFromEnvOrDefault env sv <;> rfl
          · unfold recurseShared
            rw [if_neg ht]
            have hbeq : (sv.typeName == "SharedLeaf") = false :=
              beq_eq_false_iff_ne.mpr ht
            rw [hbeq, Bool.false_and]
            rfl
        | vstr s => rfl
        | vint w z => rfl
        | vuint w nn => rfl
        | vbool b => rfl
        | vother => rfl
      · by_cases h2 : n = "SharedBeego"
        · subst h2
          cases v with
          | vstruct sv =>
            show isOkE (recurseShared env "SharedBeego" "SharedBeego" e d true
              (.vstruct sv)) = (sv.typeName == "SharedBeego" && wfStruct sv)
            by_cases ht : sv.typeName = "SharedBeego"
            · unfold recurseShared
              rw [if_pos ht]
              have hbeq : (sv.typeName == "SharedBeego") = true := by
                rw [ht]; rfl
              rw [hbeq, Bool.true_and, ← setFrom_isOk env sv]
              cases setFromEnvOrDefault env sv <;> rfl
            · unfold recurseShared
              rw [if_neg ht]
              have hbeq : (sv.typeName == "SharedBeego") = false :=
                beq_eq_false_iff_ne.mpr ht
              rw [hbeq, Bool.false_and]
              rfl
          | vstr s => rfl
          | vint w z => rfl
          | vuint w nn => rfl
          | vbool b => rfl
          | vother => rfl
        · show isOkE (resolveField env tn (.mk n e d true v)) =
            wfField (.mk n e d true v)
          unfold resolveField
          rw [if_neg (by simp), if_neg h1, if_neg h2]
          unfold wfField
          rw [if_neg h1, if_neg h2]
          rfl
termination_by sizeOf f
end

theorem resolveField_leaf (env : String → String) (tn n e d : String)
    (v : GoValue) (h1 : n ≠ "SharedLeaf") (h2 : n ≠ "SharedBeego") :
    resolveField env tn (.mk n e d true v) =
      .ok (.mk n e d true (resolveLeafVal env e d v)) := by
  unfold resolveField
  rw [if_neg (by simp), if_neg h1, if_neg h2]

theorem envStep_skip (env : String → String) (e : String) (v : GoValue)
    (h : (tagOk e && env e != "") = false) : envStep env e v = v := by
  unfold envStep
  rw [h]
  rfl

theorem envStep_apply (env : String → String) (e : String) (v : GoValue)
    (h : (tagOk e && env e != "") = true) :
    envStep env e v = setValue v (env e) := by
  unfold envStep
  rw [h]
  rfl

theorem defStep_keep (d : String) (v : GoValue) (h : isSet v = true) :
    defStep d v = v := by
  unfold defStep
  rw [if_pos h]

theorem defStep_apply (d : String) (v : GoValue) (h : isSet v = false)
    (hd : tagOk d = true) : defStep d v = setValue v d := by
  unfold defStep
  rw [if_neg (by rw [h]; exact Bool.false_ne_true), if_pos hd]

theorem defStep_skip (d : String) (v : GoValue) (h : isSet v = false)
    (hd : tagOk d = false) : defStep d v = v := by
  unfold defStep
  rw [if_neg (by rw [h]; exact Bool.false_ne_true),
    if_neg (by rw [hd]; exact Bool.false_ne_true)]

theorem envCond_skip (env : String → String) (e : String)
    (h : tagOk e = false ∨ env e = "") : (tagOk e && env e != "") = false := by
  cases h with
  | inl h0 => rw [h0, Bool.false_and]
  | inr h0 => rw [h0]; simp

-- Concrete fixtures used by the claim theorems and their witnesses.

/-- An empty process environment. -/
def env0 : String → String := fun _ => ""

/-- A decoder whose patch is empty (file decodes to nothing). -/
def dec0 : String → PatchStruct := fun _ => .mk []

/-- Structure with one signed 16-bit field holding 0, with a declared
default of "5" and no env key. -/
def st16 : StructVal := .mk "S" [.mk "Level16" "" "5" true (.vint .w16 0)]

/-- Same shape with a 32-bit field, for contrast. -/
def st32 : StructVal := .mk "S" [.mk "Level32" "" "5" true (.vint .w32 0)]

/-- C2: the Meaningfulness Test does not treat every integer width
uniformly.  `isSet` omits the 16-bit kinds from its integer case lists,
so a zero-valued int16 or uint16 field is judged meaningful (`isSet`
returns `true` through the final catch-all), and a declared default for
such a field is never applied — the resolution pass leaves the zero in
place, while an otherwise identical 32-bit field does receive its
default.  This contradicts the claim (and the package comment that all
int kinds are fully supported). -/
theorem isSet_int16_zero_meaningful :
    isSet (.vint .w16 0) = true ∧
    isSet (.vuint .w16 0) = true ∧
    isSet (.vint .w32 0) = false ∧
    isSet (.vint .wNative 0) = false ∧
    isSet (.vuint .w64 0) = false ∧
    setFromEnvOrDefault env0 st16 =
      .ok (.mk "S" [.mk "Level16" "" "5" true (.vint .w16 0)]) ∧
    setFromEnvOrDefault env0 st32 =
      .ok (.mk "S" [.mk "Level32" "" "5" true (.vint .w32 5)]) := by
  refine ⟨rfl, rfl, rfl, rfl, rfl, ?_, ?_⟩ <;> rfl

/-- C3: the Value Coercer does not handle 16-bit integer kinds at all:
`setValue`'s switches list `Int, Int8, Int32, Int64` (resp. the unsigned
counterparts), so for an int16/uint16 field the source string is neither
parsed nor assigned and no diagnostic is printed — the call is a silent
no-op — while a 32-bit field is parsed and assigned.  Moreover the
diagnostic printed on a genuine parse failure contains the type name
twice (`t` is `field.Type()`), never the field name: `setValue` does not
even receive the field name. -/
theorem setValue_skips_16bit :
    parseIntGo "5" = some 5 ∧
    setValueD (.vint .w16 0) "5" = (.vint .w16 0, none) ∧
    setValueD (.vuint .w16 0) "5" = (.vuint .w16 0, none) ∧
    setValueD (.vint .w32 0) "5" = (.vint .w32 5, none) ∧
    setValueD (.vint .w32 0) "abc" =
      (.vint .w32 0, some "[Config Error]Invalid value: int32(int32), got abc
") := by
  refine ⟨by decide, rfl, rfl, ?_, ?_⟩ <;> rfl

/-- C6: a string that cannot be parsed as the field's declared kind is
indeed handled locally — the field always retains its previous value and
nothing propagates — but the promised diagnostic is NOT logged for the
16-bit integer kinds: their coercion is silently skipped, while for the
kinds the switch does list a diagnostic is printed. -/
theorem int16_coercion_failure_silent :
    parseIntGo "abc" = none ∧
    setValueD (.vint .w16 7) "abc" = (.vint .w16 7, none) ∧
    setValueD (.vuint .w16 7) "abc" = (.vuint .w16 7, none) ∧
    setValueD (.vint .w64 7) "abc" = (.vint .w64 7, some (invalidMsg "int64" "abc")) ∧
    setValueD (.vbool true) "abc" = (.vbool true, some (invalidMsg "bool" "abc")) ∧
    setValueD (.vstr "keep") "abc" = (.vstr "abc", none) := by
  refine ⟨by decide, rfl, rfl, ?_, ?_, rfl⟩ <;> rfl

/-- C7: when reading the file fails, `Parse` behaves exactly as the
environment/default pass alone on the untouched destination (the nil
data makes `json.Unmarshal` fail without writing anything), and on any
well-formed structure it returns normally. -/
theorem missing_file_falls_through :
    (∀ (decode : String → PatchStruct) (env : String → String) (st : StructVal),
      Parse none decode env st = setFromEnvOrDefault env st) ∧
    (∀ (decode : String → PatchStruct) (env : String → String) (st : StructVal),
      wfStruct st = true → isOkE (Parse none decode env st) = true) := by
  constructor
  · intro decode env st
    unfold Parse
    rw [overlayStruct_empty]
  · intro decode env st hwf
    unfold Parse
    rw [overlayStruct_empty, setFrom_isOk, hwf]

/-- Witness for C7 at a concrete decoder, environment and structure. -/
theorem missing_file_falls_through_witness :
    Parse none dec0 env0 st32 = setFromEnvOrDefault env0 st32 ∧
    isOkE (Parse none dec0 env0 st32) = true :=
  ⟨missing_file_falls_through.1 dec0 env0 st32,
   missing_file_falls_through.2 dec0 env0 st32 (by rfl)⟩

/-- C8: an unsettable field makes the walker abort with a message naming
the structure type and the field, whatever the environment holds; more
precisely the pass returns normally exactly on well-formed structures
(every traversed field settable, the name-dispatched sub-structures of
the asserted types), independently of the environment, and on a
well-formed structure no external input — file outcome, decoded
content, or environment — can make `Parse` abort. -/
theorem unsettable_field_aborts :
    (∀ (env : String → String) (tn n e d : String) (v : GoValue)
      (rest : List Field),
      setFromEnvOrDefault env (.mk tn (.mk n e d false v :: rest)) =
        .error ("[Config Error]" ++ tn ++ " Field " ++ n ++ " Cannot set.")) ∧
    (∀ (env : String → String) (st : StructVal),
      isOkE (setFromEnvOrDefault env st) = wfStruct st) ∧
    (∀ (st : StructVal) (readResult : Option String)
      (decode : String → PatchStruct) (env : String → String),
      wfStruct st = true → isOkE (Parse readResult decode env st) = true) := by
  refine ⟨?_, setFrom_isOk, ?_⟩
  · intro env tn n e d v rest
    rfl
  · intro st readResult decode env hwf
    unfold Parse
    rw [setFrom_isOk, wf_overlayStruct, hwf]

/-- Witness for C8: a concrete unsettable field aborts with the concrete
message; a concrete well-formed structure never aborts. -/
theorem unsettable_field_aborts_witness :
    setFromEnvOrDefault env0
        (.mk "Cfg" [.mk "hidden" "" "1" false (.vint .wNative 0)]) =
      .error ("[Config Error]" ++ "Cfg" ++ " Field " ++ "hidden" ++ " Cannot set.") ∧
    isOkE (Parse (some "data") dec0 env0 st16) = true :=
  ⟨unsettable_field_aborts.1 env0 "Cfg" "hidden" "" "1" (.vint .wNative 0) [],
   unsettable_field_aborts.2.2 st16 (some "data") dec0 env0 (by rfl)⟩

/-- C10: recursion is dispatched on the field name only.  A field named
`SharedLeaf` or `SharedBeego` whose value is not a structure of exactly
that type makes the walker abort through the failed type assertion; a
structure-valued field under any other name is a leaf of unhandled kind:
`isSet` judges it meaningful, `setValue` never assigns it, and the pass
returns it — with all its inner fields — exactly as JSON decoding left
it; and when name and type do match the walker recurses into the
sub-structure. -/
theorem recursion_by_name_not_type :
    (∀ (sv : StructVal) (s : String),
      isSet (.vstruct sv) = true ∧ setValue (.vstruct sv) s = .vstruct sv) ∧
    (∀ (env : String → String) (tn n e d : String) (sv : StructVal),
      n ≠ "SharedLeaf" → n ≠ "SharedBeego" →
      resolveField env tn (.mk n e d true (.vstruct sv)) =
        .ok (.mk n e d true (.vstruct sv))) ∧
    (∀ (env : String → String) (tn e d : String) (sv : StructVal),
      sv.typeName ≠ "SharedLeaf" →
      resolveField env tn (.mk "SharedLeaf" e d true (.vstruct sv)) =
        .error (assertFailMsg "SharedLeaf")) ∧
    (∀ (env : String → String) (tn e d : String) (sv : StructVal),
      sv.typeName ≠ "SharedBeego" →
      resolveField env tn (.mk "SharedBeego" e d true (.vstruct sv)) =
        .error (assertFailMsg "SharedBeego")) ∧
    (∀ (env : String → String) (tn e d : String) (sv : StructVal),
      sv.typeName = "SharedLeaf" →
      resolveField env tn (.mk "SharedLeaf" e d true (.vstruct sv)) =
        (match setFromEnvOrDefault env sv with
         | .error m => .error m
         | .ok sv2 => .ok (.mk "SharedLeaf" e d true (.vstruct sv2)))) := by
  refine ⟨?_, ?_, ?_, ?_, ?_⟩
  · intro sv s
    exact ⟨rfl, rfl⟩
  · intro env tn n e d sv h1 h2
    rw [resolveField_leaf env tn n e d _ h1 h2, resolveLeafVal_vstruct]
  · intro env tn e d sv h1
    unfold resolveField
    rw [if_neg (by simp), if_pos rfl]
    unfold recurseShared
    rw [if_neg h1]
  · intro env tn e d sv h1
    unfold resolveField
    rw [if_neg (by simp), if_neg (by decide), if_pos rfl]
    unfold recurseShared
    rw [if_neg h1]
  · intro env tn e d sv ht
    unfold resolveField
    rw [if_neg (by simp), if_pos rfl]
    unfold recurseShared
    rw [if_pos ht]

/-- Witness for C10 at concrete structures: an alien-named embedded
structure is left untouched, and a mistyped `SharedLeaf` field aborts. -/
theorem recursion_by_name_not_type_witness :
    resolveField env0 "T" (.mk "Nested" "" ""
        true (.vstruct (.mk "Inner" [.mk "X" "" "9" true (.vint .wNative 0)]))) =
      .ok (.mk "Nested" "" ""
        true (.vstruct (.mk "Inner" [.mk "X" "" "9" true (.vint .wNative 0)]))) ∧
    resolveField env0 "T" (.mk "SharedLeaf" "" ""
        true (.vstruct (.mk "Other" []))) = .error (assertFailMsg "SharedLeaf") :=
  ⟨recursion_by_name_not_type.2.1 env0 "T" "Nested" "" ""
      (.mk "Inner" [.mk "X" "" "9" true (.vint .wNative 0)]) (by decide) (by decide),
   recursion_by_name_not_type.2.2.1 env0 "T" "" "" (.mk "Other" []) (by decide)⟩

/-- Environment holding only LISTEN_PORT=0. -/
def envPort0 : String → String := fun k => if k = "LISTEN_PORT" then "0" else ""

/-- Environment holding only LISTEN_PORT=9090. -/
def env9090 : String → String := fun k => if k = "LISTEN_PORT" then "9090" else ""

/-- A port field with env key LISTEN_PORT and default "8080". -/
def stPort : StructVal :=
  .mk "T" [.mk "ListenPort" "LISTEN_PORT" "8080" true (.vint .wNative 0)]

/-- The spec's own scenario: env key LISTEN_PORT, default "0". -/
def stPortD0 : StructVal :=
  .mk "T" [.mk "ListenPort" "LISTEN_PORT" "0" true (.vint .wNative 0)]

/-- Decoder that writes 8080 into the first field. -/
def dec8080 : String → PatchStruct := fun _ => .mk [some (.pint 8080)]

/-- C1 counterexample: LISTEN_PORT is present and non-empty with value
"0", which parses as 0, yet the resolved value is the default 8080, not
the parsed environment value: after the environment assignment the field
is re-inspected by `isSet` and, holding 0, falls through to the declared
default — resolution does not stop at the environment assignment. -/
theorem env_zero_overridden_by_default_cex :
    envPort0 "LISTEN_PORT" = "0" ∧
    parseIntGo "0" = some 0 ∧
    Parse none dec0 envPort0 stPort =
      .ok (.mk "T"
        [.mk "ListenPort" "LISTEN_PORT" "8080" true (.vint .wNative 8080)]) ∧
    (8080 : Int) ≠ 0 := by
  refine ⟨rfl, by decide, by rfl, by decide⟩

/-- C1 (amended): the environment wins whenever its value coerces, for
the field's declared kind, to a value passing the Meaningfulness Test:
the resolved value is then exactly that coerced value, independent of
the JSON-decoded prior value and of the declared default.  (When the
coerced value is zero/empty/false, a declared default subsequently
overwrites it, as the counterexample shows.)  Concretely, the spec's own
scenario LISTEN_PORT=9090 against JSON 8080 and default "0" resolves to
9090. -/
theorem env_wins_when_meaningful :
    (∀ (env : String → String) (tn n e d : String) (v w : GoValue),
      n ≠ "SharedLeaf" → n ≠ "SharedBeego" →
      tagOk e = true → env e ≠ "" →
      coerce (kindOf v) (env e) = some w → isSet w = true →
      resolveField env tn (.mk n e d true v) = .ok (.mk n e d true w)) ∧
    Parse (some "file") dec8080 env9090 stPortD0 =
      .ok (.mk "T"
        [.mk "ListenPort" "LISTEN_PORT" "0" true (.vint .wNative 9090)]) := by
  constructor
  · intro env tn n e d v w hn1 hn2 he hne hw hset
    rw [resolveField_leaf env tn n e d v hn1 hn2]
    unfold resolveLeafVal
    rw [envStep_apply env e v (by rw [he, Bool.true_and]; exact bne_iff_ne.mpr hne)]
    rw [setValue_eq_coerce, hw]
    show Except.ok (Field.mk n e d true (defStep d w)) = _
    rw [defStep_keep d w hset]
  · rfl

/-- Witness for C1's amended theorem at the spec's scenario. -/
theorem env_wins_when_meaningful_witness :
    resolveField env9090 "T"
        (.mk "ListenPort" "LISTEN_PORT" "0" true (.vint .wNative 8080)) =
      .ok (.mk "ListenPort" "LISTEN_PORT" "0" true (.vint .wNative 9090)) :=
  env_wins_when_meaningful.1 env9090 "T" "ListenPort" "LISTEN_PORT" "0"
    (.vint .wNative 8080) (.vint .wNative 9090)
    (by decide) (by decide) (by rfl) (by decide) (by rfl) (by rfl)

/-- Decoder that writes `false` into the first (boolean) field. -/
def decFalse : String → PatchStruct := fun _ => .mk [some (.pbool false)]

/-- A boolean field with no env key and default "true". -/
def stDebug : StructVal := .mk "T" [.mk "Debug" "" "true" true (.vbool false)]

/-- C4: a boolean leaf with declared default "true", set to `false` by
the JSON file, with no environment override, resolves to `true`: the
decoded `false` fails the Meaningfulness Test and the default overwrites
it. -/
theorem bool_false_default_true_resolves_true :
    (∀ (env : String → String) (tn n e : String),
      n ≠ "SharedLeaf" → n ≠ "SharedBeego" →
      (tagOk e = false ∨ env e = "") →
      resolveField env tn (.mk n e "true" true (.vbool false)) =
        .ok (.mk n e "true" true (.vbool true))) ∧
    Parse (some "file") decFalse env0 stDebug =
      .ok (.mk "T" [.mk "Debug" "" "true" true (.vbool true)]) := by
  constructor
  · intro env tn n e hn1 hn2 henv
    rw [resolveField_leaf env tn n e "true" _ hn1 hn2]
    unfold resolveLeafVal
    rw [envStep_skip env e _ (envCond_skip env e henv),
      defStep_apply "true" (.vbool false) rfl rfl]
    rfl
  · rfl

/-- Witness for C4 at a concrete field. -/
theorem bool_false_default_true_resolves_true_witness :
    resolveField env0 "T" (.mk "Flag" "" "true" true (.vbool false)) =
      .ok (.mk "Flag" "" "true" true (.vbool true)) :=
  bool_false_default_true_resolves_true.1 env0 "T" "Flag" ""
    (by decide) (by decide) (Or.inl rfl)

/-- Decoder that writes -5 into the first field. -/
def decNeg : String → PatchStruct := fun _ => .mk [some (.pint (-5))]

/-- An int field with no env key and no default. -/
def stLevel : StructVal := .mk "T" [.mk "Level" "" "" true (.vint .wNative 0)]

/-- C9 counterexample: a field with no environment override, no declared
default, and a JSON-decoded value of -5 — which is not meaningful under
the test — resolves to -5 after Parse, not to the kind's zero value. -/
theorem negative_json_value_kept_cex :
    isSet (.vint .wNative (-5)) = false ∧
    Parse (some "file") decNeg env0 stLevel =
      .ok (.mk "T" [.mk "Level" "" "" true (.vint .wNative (-5))]) ∧
    GoValue.vint .wNative (-5) ≠ .vint .wNative 0 := by
  refine ⟨rfl, by rfl, ?_⟩
  intro hcontra
  injection hcontra with hw hz
  exact absurd hz (by decide)

/-- C9 (amended): with no environment override, no meaningful current
value and no declared default, a leaf field keeps exactly the value JSON
decoding left in it — the kind's zero value whenever decoding left it at
zero/empty/false (second conjunct), but possibly a non-zero
non-meaningful value such as a negative signed integer (see the
counterexample). -/
theorem non_meaningful_untouched_without_default :
    (∀ (env : String → String) (tn n e d : String) (v : GoValue),
      n ≠ "SharedLeaf" → n ≠ "SharedBeego" →
      (tagOk e = false ∨ env e = "") →
      isSet v = false →
      tagOk d = false →
      resolveField env tn (.mk n e d true v) = .ok (.mk n e d true v)) ∧
    (∀ (env : String → String) (tn n e d : String),
      n ≠ "SharedLeaf" → n ≠ "SharedBeego" →
      (tagOk e = false ∨ env e = "") → tagOk d = false →
      resolveField env tn (.mk n e d true (.vstr "")) =
          .ok (.mk n e d true (.vstr "")) ∧
      resolveField env tn (.mk n e d true (.vint .wNative 0)) =
          .ok (.mk n e d true (.vint .wNative 0)) ∧
      resolveField env tn (.mk n e d true (.vuint .w64 0)) =
          .ok (.mk n e d true (.vuint .w64 0)) ∧
      resolveField env tn (.mk n e d true (.vbool false)) =
          .ok (.mk n e d true (.vbool false))) := by
  have key : ∀ (env : String → String) (tn n e d : String) (v : GoValue),
      n ≠ "SharedLeaf" → n ≠ "SharedBeego" →
      (tagOk e = false ∨ env e = "") → isSet v = false → tagOk d = false →
      resolveField env tn (.mk n e d true v) = .ok (.mk n e d true v) := by
    intro env tn n e d v hn1 hn2 henv hv hd
    rw [resolveField_leaf env tn n e d v hn1 hn2]
    unfold resolveLeafVal
    rw [envStep_skip env e v (envCond_skip env e henv), defStep_skip d v hv hd]
  refine ⟨key, ?_⟩
  intro env tn n e d hn1 hn2 henv hd
  exact ⟨key env tn n e d _ hn1 hn2 henv rfl hd,
    key env tn n e d _ hn1 hn2 henv rfl hd,
    key env tn n e d _ hn1 hn2 henv rfl hd,
    key env tn n e d _ hn1 hn2 henv rfl hd⟩

/-- Witness for C9's amended theorem at a concrete negative value. -/
theorem non_meaningful_untouched_without_default_witness :
    resolveField env0 "T" (.mk "Level" "" "" true (.vint .wNative (-7))) =
      .ok (.mk "Level" "" "" true (.vint .wNative (-7))) :=
  non_meaningful_untouched_without_default.1 env0 "T" "Level" "" ""
    (.vint .wNative (-7)) (by decide) (by decide) (Or.inl rfl) (by rfl) rfl

/-- C5: resolution is idempotent: a second Parse on the destination
produced by a first Parse, with the same file outcome, decoder and
environment, leaves every field exactly as the first run did. -/
theorem Parse_idempotent (readResult : Option String)
    (decode : String → PatchStruct) (env : String → String)
    (st st2 : StructVal) (h : Parse readResult decode env st = .ok st2) :
    Parse readResult decode env st2 = .ok st2 := by
  unfold Parse at h ⊢
  exact parseAgainStruct env _ st st2 h

/-- Witness for C5 at a concrete run. -/
theorem Parse_idempotent_witness :
    Parse none dec0 env0 stPort =
      .ok (.mk "T"
        [.mk "ListenPort" "LISTEN_PORT" "8080" true (.vint .wNative 8080)]) ∧
    Parse none dec0 env0
        (.mk "T"
          [.mk "ListenPort" "LISTEN_PORT" "8080" true (.vint .wNative 8080)]) =
      .ok (.mk "T"
        [.mk "ListenPort" "LISTEN_PORT" "8080" true (.vint .wNative 8080)]) :=
  ⟨by rfl, Parse_idempotent none dec0 env0 stPort _ (by rfl)⟩

end Config
